import Mathlib

/-!
# Verification of the atomvm_lib native function layer

A shallow embedding of `src/nifs/atomvm_lib.c` (the AtomVM `atomvm_lib` NIF
collection): the persistent RTC memory store, the MAC identity query, the
SHA-1 digest NIF, and the clock-control NIF, together with proofs of the
specified properties.

Managed values (`term`) are modelled by an inductive `Term`; a NIF outcome is
either a normally returned term (`NifResult.ok`) or a raised error with its
reason term (`NifResult.raise`, the `RAISE_ERROR` channel in the C source).
External outcomes that the C code only observes (the result of
`memory_ensure_free`, of `mbedtls_sha1_ret`, of `settimeofday`, the bytes of
the efuse MAC) are passed in as explicit parameters.
-/

namespace AtomvmLib

/-- Managed values as far as this NIF collection constructs or inspects them:
binaries (byte buffers), atoms, integers (`avm_int64_t` range and beyond,
modelled unbounded), and 2-tuples (the only tuples built here). -/
inductive Term where
  | binary (bytes : List Nat)
  | atom (name : String)
  | integer (n : Int)
  | tuple2 (fst snd : Term)
deriving DecidableEq

/-- Outcome of a NIF call: a normally returned term, or a raised error
carrying its reason term (the C `RAISE_ERROR` macro sets the error reason and
returns an invalid term to signal the raise). -/
inductive NifResult where
  | ok (t : Term)
  | raise (reason : Term)
deriving DecidableEq

/-- `term_is_binary` from the AtomVM term API. -/
def term_is_binary : Term → Bool
  | .binary _ => true
  | _ => false

/-- `term_binary_data`: the bytes of a binary term. -/
def term_binary_data : Term → List Nat
  | .binary bs => bs
  | _ => []

/-- `term_binary_size`: the byte length of a binary term. -/
def term_binary_size (t : Term) : Nat :=
  (term_binary_data t).length

/-! ## Persistent memory store (`RTC_DATA_ATTR` globals, lines 40-70)

`data_len` and the retained buffer `data` are process-wide state surviving
warm resets.  `CONFIG_RTC_MEMORY_SIZE` is a compile-time constant; it is a
parameter `cap` here. -/

/-- The retained RTC state: the buffer contents and the stored length
(`RTC_DATA_ATTR size_t data_len` and `RTC_DATA_ATTR ... data[...]`). -/
structure RtcState where
  data : List Nat
  data_len : Nat
deriving DecidableEq

/-- The boot state: static `RTC_DATA_ATTR` variables are zero-initialised on
power-up, so `data_len = 0` and the buffer is all zero bytes. -/
def initState (cap : Nat) : RtcState :=
  { data := List.replicate cap 0, data_len := 0 }

/-- `nif_set_rtc_memory` (lines 43-58): validate the argument is a binary
(`badarg` otherwise), reject lengths over `cap` (`badarg`, no mutation),
otherwise set `data_len` and `memcpy` the bytes over the front of the
retained buffer, returning `ok`. -/
def nif_set_rtc_memory (cap : Nat) (st : RtcState) (arg : Term) :
    NifResult × RtcState :=
  if term_is_binary arg = false then
    (.raise (Term.atom "badarg"), st)
  else
    let binary_len := term_binary_size arg
    if cap < binary_len then
      (.raise (Term.atom "badarg"), st)
    else
      (.ok (Term.atom "ok"),
        { data := term_binary_data arg ++ st.data.drop binary_len,
          data_len := binary_len })

/-- `nif_get_rtc_memory` (lines 60-70): `memOk` is the outcome of
`memory_ensure_free` (false raises `out_of_memory`); on success a fresh
binary holding the first `data_len` retained bytes is returned.  The store
itself is not modified. -/
def nif_get_rtc_memory (memOk : Bool) (st : RtcState) : NifResult :=
  if memOk = false then
    .raise (Term.atom "out_of_memory")
  else
    .ok (Term.binary (st.data.take st.data_len))

/-! ## Identity query (`nif_get_mac`, lines 74-90)

`esp_efuse_mac_get_default` reads the 6-byte hardware MAC; it is passed in as
the parameter `mac` (each entry is a C `uint8_t`, hence below 256).  `snprintf
"%02x..."` formats each byte as two lowercase hex digits. -/

/-- ASCII code of the lowercase hex digit for `n < 16`, as produced by
`%x` formatting: `0`-`9` are 48-57, `a`-`f` are 97-102. -/
def hexDigit (n : Nat) : Nat :=
  if n < 10 then 48 + n else 87 + n

/-- The two lowercase hex digits `%02x` prints for a byte value. -/
def byteHex (b : Nat) : List Nat :=
  [hexDigit (b / 16), hexDigit (b % 16)]

/-- `nif_get_mac` (lines 74-90): read the efuse MAC, ensure heap space for a
12-byte binary (`out_of_memory` on failure), format the 6 bytes as 12
lowercase hex characters and return them as a fresh binary. -/
def nif_get_mac (mac : List Nat) (memOk : Bool) : NifResult :=
  if memOk = false then
    .raise (Term.atom "out_of_memory")
  else
    .ok (Term.binary (mac.flatMap byteHex))

/-! ## The SHA-1 digest model

`nif_sha1` delegates the digest computation to `mbedtls_sha1_ret`, which is
external to this repository.  The spec fixes its meaning to the standard
160-bit SHA-1 algorithm (FIPS 180), so that algorithm is defined here
executably over byte lists, with 32-bit words as `Nat` reduced mod `2^32`. -/

/-- Truncation to a 32-bit word. -/
def w32 (n : Nat) : Nat := n % 4294967296

/-- 32-bit left rotation by `k` (for words below `2^32`). -/
def rotl (k n : Nat) : Nat := w32 ((n <<< k) ||| (n >>> (32 - k)))

/-- Big-endian assembly of four bytes into a word. -/
def bytesToWord (a b c d : Nat) : Nat := ((a * 256 + b) * 256 + c) * 256 + d

/-- Big-endian conversion of a byte list into 32-bit words (groups of 4). -/
def toWords : List Nat → List Nat
  | a :: b :: c :: d :: rest => bytesToWord a b c d :: toWords rest
  | _ => []

/-- One step of the SHA-1 message-schedule extension: append
`rotl 1 (w[n-3] xor w[n-8] xor w[n-14] xor w[n-16])`. -/
def extendStep (ws : List Nat) : List Nat :=
  let n := ws.length
  ws ++ [rotl 1 (ws.getD (n - 3) 0 ^^^ ws.getD (n - 8) 0 ^^^
    ws.getD (n - 14) 0 ^^^ ws.getD (n - 16) 0)]

/-- Iterate `extendStep`. -/
def extendN : Nat → List Nat → List Nat
  | 0, ws => ws
  | n + 1, ws => extendN n (extendStep ws)

/-- The 80-word SHA-1 message schedule of a 16-word block. -/
def schedule (ws : List Nat) : List Nat := extendN 64 ws

/-- The SHA-1 round constants. -/
def K (t : Nat) : Nat :=
  if t < 20 then 0x5A827999
  else if t < 40 then 0x6ED9EBA1
  else if t < 60 then 0x8F1BBCDC
  else 0xCA62C1D6

/-- The SHA-1 round functions (Ch, Parity, Maj, Parity); 32-bit complement is
xor with `0xFFFFFFFF`. -/
def mix (t b c d : Nat) : Nat :=
  if t < 20 then (b &&& c) ||| ((b ^^^ 0xFFFFFFFF) &&& d)
  else if t < 40 then b ^^^ c ^^^ d
  else if t < 60 then (b &&& c) ||| (b &&& d) ||| (c &&& d)
  else b ^^^ c ^^^ d

/-- The five 32-bit working variables / hash state of SHA-1. -/
abbrev Hs := Nat × Nat × Nat × Nat × Nat

/-- The SHA-1 compression rounds over a message schedule, starting at round
index `t`. -/
def rounds : Nat → List Nat → Hs → Hs
  | _, [], st => st
  | t, w :: ws, (a, b, c, d, e) =>
      rounds (t + 1) ws
        (w32 (rotl 5 a + mix t b c d + e + K t + w), a, rotl 30 b, c, d)

/-- Compress one 16-word block into the hash state. -/
def processChunkWords (h : Hs) (ws : List Nat) : Hs :=
  let r := rounds 0 (schedule ws) h
  (w32 (h.1 + r.1), w32 (h.2.1 + r.2.1), w32 (h.2.2.1 + r.2.2.1),
    w32 (h.2.2.2.1 + r.2.2.2.1), w32 (h.2.2.2.2 + r.2.2.2.2))

/-- Fold the compression over the words of a padded message, 16 words (one
512-bit block) at a time. -/
def processWords (h : Hs) : List Nat → Hs
  | w0 :: w1 :: w2 :: w3 :: w4 :: w5 :: w6 :: w7 ::
      w8 :: w9 :: wa :: wb :: wc :: wd :: we :: wf :: rest =>
    processWords
      (processChunkWords h
        [w0, w1, w2, w3, w4, w5, w6, w7, w8, w9, wa, wb, wc, wd, we, wf])
      rest
  | _ => h

/-- SHA-1 padding: a `0x80` byte, zeros up to 56 mod 64, then the bit length
as 8 big-endian bytes. -/
def padMessage (msg : List Nat) : List Nat :=
  let len := msg.length
  let padZeros := (119 - len % 64) % 64
  let bitLen := len * 8
  msg ++ [0x80] ++ List.replicate padZeros 0 ++
    [(bitLen >>> 56) % 256, (bitLen >>> 48) % 256, (bitLen >>> 40) % 256,
     (bitLen >>> 32) % 256, (bitLen >>> 24) % 256, (bitLen >>> 16) % 256,
     (bitLen >>> 8) % 256, bitLen % 256]

/-- Big-endian bytes of a 32-bit word. -/
def wordBytes (w : Nat) : List Nat :=
  [(w >>> 24) % 256, (w >>> 16) % 256, (w >>> 8) % 256, w % 256]

/-- The 20 digest bytes of a final hash state. -/
def digestBytes (h : Hs) : List Nat :=
  wordBytes h.1 ++ wordBytes h.2.1 ++ wordBytes h.2.2.1 ++
    wordBytes h.2.2.2.1 ++ wordBytes h.2.2.2.2

/-- The SHA-1 initial hash state. -/
def initHs : Hs :=
  (0x67452301, 0xEFCDAB89, 0x98BADCFE, 0x10325476, 0xC3D2E1F0)

/-- SHA-1 of a byte list, as the 20 digest bytes. -/
def sha1spec (msg : List Nat) : List Nat :=
  digestBytes (processWords initHs (toWords (padMessage msg)))

/-- Modelled from the spec: `mbedtls_sha1_ret` is external library code (not
in `src/`); per the spec it computes "the standard 160-bit cryptographic
digest (the widely used SHA-1 algorithm) over the input bytes", i.e.
`sha1spec`.  Its possible nonzero return code is modelled separately by the
`mbedFails` flag of `nif_sha1`. -/
def mbedtls_sha1_ret (input : List Nat) : List Nat :=
  sha1spec input

/-- `nif_sha1` (lines 94-112): validate the argument is a binary (`badarg`
otherwise); ensure heap space for the 20-byte output (`out_of_memory` on
failure, with `memOk` the `memory_ensure_free` outcome); construct the
20-byte output binary on the managed heap (`term_create_uninitialized_binary`
appends it to `heap`); run `mbedtls_sha1_ret` into it; if the digest engine
reports failure (`mbedFails`) raise `badarg`, else return the binary.  The
second component is the managed heap after the call. -/
def nif_sha1 (arg : Term) (memOk mbedFails : Bool) (heap : List Term) :
    NifResult × List Term :=
  if term_is_binary arg = false then
    (.raise (Term.atom "badarg"), heap)
  else if memOk = false then
    (.raise (Term.atom "out_of_memory"), heap)
  else
    let digest := mbedtls_sha1_ret (term_binary_data arg)
    let heap2 := heap ++ [Term.binary digest]
    if mbedFails then
      (.raise (Term.atom "badarg"), heap2)
    else
      (.ok (Term.binary digest), heap2)

/-! ## Clock control (`nif_set_time_of_day`, lines 114-144)

The millisecond argument is split with C integer division (`/` and `%` on
`avm_int64_t` truncate toward zero: `Int.tdiv` / `Int.tmod`).  The outcome of
`settimeofday` is the parameter `osFails` (with `osErrno` the `errno` it
leaves); `memOk` is the outcome of `memory_ensure_free` on the failure path.
The record also exposes which arguments, if any, were passed to
`settimeofday`, so that "the OS call was not invoked" is expressible. -/

/-- `term_is_any_integer` from the AtomVM term API. -/
def term_is_any_integer : Term → Bool
  | .integer _ => true
  | _ => false

/-- `term_maybe_unbox_int64`: the integer value of an integer term. -/
def term_maybe_unbox_int64 : Term → Int
  | .integer n => n
  | _ => 0

/-- Outcome of a `set_time_of_day` call: the NIF result, and the
`(tv_sec, tv_usec, tz_minuteswest, tz_dsttime)` quadruple passed to
`settimeofday`, or `none` when the OS call was never made. -/
structure TodOutcome where
  result : NifResult
  osCall : Option (Int × Int × Int × Int)
deriving DecidableEq

/-- `nif_set_time_of_day` (lines 114-144): validate the argument is an
integer (`badarg` otherwise, without calling the OS); split the milliseconds
into `tv_sec = ms / 1000` and `tv_usec = (ms % 1000) * 1000` with C
truncating division; call `settimeofday` with a zeroed timezone.  On OS
success return `ok`; on OS failure build the tuple `{error, errno}` (raising
`out_of_memory` if the heap check fails) and raise it via `RAISE_ERROR`. -/
def nif_set_time_of_day (arg : Term) (osFails : Bool) (osErrno : Int)
    (memOk : Bool) : TodOutcome :=
  if term_is_any_integer arg = false then
    { result := .raise (Term.atom "badarg"), osCall := none }
  else
    let ms := term_maybe_unbox_int64 arg
    let tv_sec := Int.tdiv ms 1000
    let tv_usec := Int.tmod ms 1000 * 1000
    if osFails then
      if memOk = false then
        { result := .raise (Term.atom "out_of_memory"),
          osCall := some (tv_sec, tv_usec, 0, 0) }
      else
        { result :=
            .raise (Term.tuple2 (Term.atom "error") (Term.integer osErrno)),
          osCall := some (tv_sec, tv_usec, 0, 0) }
    else
      { result := .ok (Term.atom "ok"),
        osCall := some (tv_sec, tv_usec, 0, 0) }

/-! ## The five operations as a transition system over the retained store

Only `set_rtc_memory` writes the `RTC_DATA_ATTR` state; every other NIF
leaves it alone.  Each `Op` carries the call argument and the external
outcomes its NIF observes. -/

/-- One call to any of the five NIFs. -/
inductive Op where
  | setRtc (arg : Term)
  | getRtc (memOk : Bool)
  | getMacOp (mac : List Nat) (memOk : Bool)
  | sha1Op (arg : Term) (memOk mbedFails : Bool) (heap : List Term)
  | setTod (arg : Term) (osFails : Bool) (osErrno : Int) (memOk : Bool)

/-- Effect of one NIF call on the retained store, with its result. -/
def step (cap : Nat) (st : RtcState) : Op → NifResult × RtcState
  | .setRtc arg => nif_set_rtc_memory cap st arg
  | .getRtc memOk => (nif_get_rtc_memory memOk st, st)
  | .getMacOp mac memOk => (nif_get_mac mac memOk, st)
  | .sha1Op arg memOk mbedFails heap => ((nif_sha1 arg memOk mbedFails heap).1, st)
  | .setTod arg osFails osErrno memOk =>
      ((nif_set_time_of_day arg osFails osErrno memOk).result, st)

/-- Store states reachable from boot by any sequence of NIF calls. -/
inductive Reachable (cap : Nat) : RtcState → Prop
  | boot : Reachable cap (initState cap)
  | next (op : Op) {st : RtcState} :
      Reachable cap st → Reachable cap (step cap st op).2

/-! ## Helper lemmas -/

/-- Formatting with `byteHex` doubles the length. -/
theorem length_flatMap_byteHex (l : List Nat) :
    (l.flatMap byteHex).length = 2 * l.length := by
  induction l with
  | nil => rfl
  | cons b t ih =>
      simp only [List.flatMap_cons, List.length_append, ih, byteHex,
        List.length_cons, List.length_nil]
      omega

/-- The digest always consists of 20 bytes. -/
theorem sha1spec_length (msg : List Nat) : (sha1spec msg).length = 20 := by
  simp [sha1spec, digestBytes, wordBytes]

set_option maxRecDepth 10000 in
/-- The FIPS 180 test vector for the empty message. -/
theorem sha1spec_empty :
    sha1spec [] =
      [0xda, 0x39, 0xa3, 0xee, 0x5e, 0x6b, 0x4b, 0x0d, 0x32, 0x55,
       0xbf, 0xef, 0x95, 0x60, 0x18, 0x90, 0xaf, 0xd8, 0x07, 0x09] := by
  decide

set_option maxRecDepth 10000 in
/-- The FIPS 180 test vector for the message `"abc"`. -/
theorem sha1spec_abc :
    sha1spec [0x61, 0x62, 0x63] =
      [0xa9, 0x99, 0x3e, 0x36, 0x47, 0x06, 0x81, 0x6a, 0xba, 0x3e,
       0x25, 0x71, 0x78, 0x50, 0xc2, 0x6c, 0x9c, 0xd0, 0xd8, 0x9d] := by
  decide

/-! ## Claim C1 -/

/-- C1: for every byte buffer `b` with `len(b) ≤ CONFIG_RTC_MEMORY_SIZE`,
`set_rtc_memory(b)` succeeds and a following `get_rtc_memory()` whose
heap-space check succeeds returns a binary byte-equal to `b`. -/
theorem c1_rtc_roundtrip (cap : Nat) (st : RtcState) (b : List Nat)
    (h : b.length ≤ cap) :
    (nif_set_rtc_memory cap st (Term.binary b)).1 = .ok (Term.atom "ok") ∧
    nif_get_rtc_memory true (nif_set_rtc_memory cap st (Term.binary b)).2 =
      .ok (Term.binary b) := by
  have hc : ¬ cap < b.length := Nat.not_lt.mpr h
  constructor
  · simp [nif_set_rtc_memory, term_is_binary, term_binary_size,
      term_binary_data, hc]
  · simp [nif_set_rtc_memory, nif_get_rtc_memory, term_is_binary,
      term_binary_size, term_binary_data, hc, List.take_left]

/-- C1 witness: round trip at capacity 4 with buffer `[1, 2, 3]`. -/
theorem c1_rtc_roundtrip_witness :
    ([1, 2, 3] : List Nat).length ≤ 4 ∧
    ((nif_set_rtc_memory 4 (initState 4) (Term.binary [1, 2, 3])).1 =
        .ok (Term.atom "ok") ∧
      nif_get_rtc_memory true
          (nif_set_rtc_memory 4 (initState 4) (Term.binary [1, 2, 3])).2 =
        .ok (Term.binary [1, 2, 3])) :=
  ⟨by decide, c1_rtc_roundtrip 4 (initState 4) [1, 2, 3] (by decide)⟩

/-! ## Claim C2 -/

/-- C2: for every byte buffer `b` with `len(b) > CONFIG_RTC_MEMORY_SIZE`,
`set_rtc_memory(b)` raises `badarg` and leaves the whole store (content and
length) unchanged. -/
theorem c2_rtc_reject_oversized (cap : Nat) (st : RtcState) (b : List Nat)
    (h : cap < b.length) :
    nif_set_rtc_memory cap st (Term.binary b) =
      (.raise (Term.atom "badarg"), st) := by
  simp [nif_set_rtc_memory, term_is_binary, term_binary_size,
    term_binary_data, h]

/-- C2 witness: a 3-byte buffer is rejected at capacity 2, state untouched. -/
theorem c2_rtc_reject_oversized_witness :
    2 < ([7, 8, 9] : List Nat).length ∧
    nif_set_rtc_memory 2 (initState 2) (Term.binary [7, 8, 9]) =
      (.raise (Term.atom "badarg"), initState 2) :=
  ⟨by decide, c2_rtc_reject_oversized 2 (initState 2) [7, 8, 9] (by decide)⟩

/-! ## Claim C3 -/

/-- C3: the stored length is `0` at boot, and `data_len ≤ cap` holds in every
state reachable by any sequence of the five operations (`set_rtc_memory` on
any input, `get_rtc_memory`, and the three stateless NIFs). -/
theorem c3_data_len_invariant (cap : Nat) :
    (initState cap).data_len = 0 ∧
    ∀ st : RtcState, Reachable cap st → st.data_len ≤ cap := by
  refine ⟨rfl, ?_⟩
  intro st h
  induction h with
  | boot => simp [initState]
  | next op h ih =>
      cases op with
      | setRtc arg =>
          by_cases hb : term_is_binary arg = false
          · simpa [step, nif_set_rtc_memory, hb] using ih
          · by_cases hlen : cap < term_binary_size arg
            · simpa [step, nif_set_rtc_memory, hb, hlen] using ih
            · simp only [step, nif_set_rtc_memory, hb, hlen, if_false,
                if_neg hlen]
              simpa using Nat.le_of_not_lt hlen
      | getRtc memOk => exact ih
      | getMacOp mac memOk => exact ih
      | sha1Op arg memOk mbedFails heap => exact ih
      | setTod arg osFails osErrno memOk => exact ih

/-- C3 witness: boot state at capacity 4, and the state after one successful
2-byte write, both respect the bound. -/
theorem c3_data_len_invariant_witness :
    (initState 4).data_len = 0 ∧
    (initState 4).data_len ≤ 4 ∧
    (step 4 (initState 4) (Op.setRtc (Term.binary [5, 6]))).2.data_len ≤ 4 :=
  ⟨(c3_data_len_invariant 4).1,
    (c3_data_len_invariant 4).2 (initState 4) Reachable.boot,
    (c3_data_len_invariant 4).2 _
      (Reachable.next (Op.setRtc (Term.binary [5, 6])) Reachable.boot)⟩

/-! ## Claim C4 -/

/-- C4: `get_rtc_memory()` in the initial boot state (before any set) returns
a zero-length binary. -/
theorem c4_rtc_get_initial (cap : Nat) :
    nif_get_rtc_memory true (initState cap) = .ok (Term.binary []) := by
  simp [nif_get_rtc_memory, initState]

/-! ## Claim C5 -/

/-- C5: on any binary input (heap check succeeding, digest engine not
failing), `sha1` returns the SHA-1 digest of the input bytes: exactly 20
bytes, independent of the prior heap contents (determinism across calls),
and on the empty input the reference vector
`da39a3ee5e6b4b0d3255bfef95601890afd80709`. -/
theorem c5_sha1_correct (b : List Nat) (heapA heapB : List Term) :
    (nif_sha1 (Term.binary b) true false heapA).1 =
      .ok (Term.binary (sha1spec b)) ∧
    (sha1spec b).length = 20 ∧
    (nif_sha1 (Term.binary b) true false heapA).1 =
      (nif_sha1 (Term.binary b) true false heapB).1 ∧
    sha1spec [] =
      [0xda, 0x39, 0xa3, 0xee, 0x5e, 0x6b, 0x4b, 0x0d, 0x32, 0x55,
       0xbf, 0xef, 0x95, 0x60, 0x18, 0x90, 0xaf, 0xd8, 0x07, 0x09] := by
  refine ⟨?_, sha1spec_length b, ?_, sha1spec_empty⟩
  · simp [nif_sha1, term_is_binary, term_binary_data, mbedtls_sha1_ret]
  · simp [nif_sha1, term_is_binary, term_binary_data]

/-! ## Claim C6 -/

/-- C6 counterexample: at `ms = -1` the code passes `tv_sec = 0` and
`tv_usec = -1000` to the OS call, not the floor-division split
`tv_sec = -1`, `tv_usec = 999000` the claim prescribes. -/
theorem c6_counterexample :
    (nif_set_time_of_day (Term.integer (-1)) false 0 true).osCall =
      some (0, -1000, 0, 0) ∧
    (nif_set_time_of_day (Term.integer (-1)) false 0 true).osCall ≠
      some (Int.fdiv (-1) 1000, Int.fmod (-1) 1000 * 1000, 0, 0) := by
  constructor
  · rfl
  · decide

/-- C6 (amended): for every integer `ms`, `set_time_of_day` passes the OS
call `tv_sec = ms / 1000` and `tv_usec = (ms % 1000) * 1000` computed with C
truncation-toward-zero division (which agrees with floor division for
`ms ≥ 0`), and a zeroed timezone. -/
theorem c6_tod_conversion (ms : Int) (osFails : Bool) (osErrno : Int)
    (memOk : Bool) :
    (nif_set_time_of_day (Term.integer ms) osFails osErrno memOk).osCall =
      some (Int.tdiv ms 1000, Int.tmod ms 1000 * 1000, 0, 0) ∧
    (0 ≤ ms →
      Int.tdiv ms 1000 = Int.fdiv ms 1000 ∧
      Int.tmod ms 1000 = Int.fmod ms 1000) := by
  constructor
  · simp only [nif_set_time_of_day, term_is_any_integer,
      term_maybe_unbox_int64]
    cases osFails <;> cases memOk <;> rfl
  · intro hms
    constructor
    · rw [Int.tdiv_eq_ediv hms (by omega), Int.fdiv_eq_ediv ms (by omega)]
    · rw [Int.tmod_eq_emod hms (by omega), Int.fmod_eq_emod ms (by omega)]

/-- C6 witness: the conversion at `ms = 1700000000000` is
`tv_sec = 1700000000`, `tv_usec = 0`. -/
theorem c6_tod_conversion_witness :
    (nif_set_time_of_day (Term.integer 1700000000000) false 0 true).osCall =
      some (Int.tdiv 1700000000000 1000,
        Int.tmod 1700000000000 1000 * 1000, 0, 0) ∧
    (0 ≤ (1700000000000 : Int) →
      Int.tdiv (1700000000000 : Int) 1000 = Int.fdiv 1700000000000 1000 ∧
      Int.tmod (1700000000000 : Int) 1000 = Int.fmod 1700000000000 1000) :=
  c6_tod_conversion 1700000000000 false 0 true

/-! ## Claim C7 -/

/-- C7 counterexample: with the OS call failing (`errno = 22`) and the heap
check succeeding, the `{error, 22}` tuple comes back on the raise channel,
not as the normally returned structured result the claim describes. -/
theorem c7_counterexample :
    (nif_set_time_of_day (Term.integer 0) true 22 true).result =
      .raise (Term.tuple2 (Term.atom "error") (Term.integer 22)) ∧
    (nif_set_time_of_day (Term.integer 0) true 22 true).result ≠
      .ok (Term.tuple2 (Term.atom "error") (Term.integer 22)) := by
  constructor
  · rfl
  · decide

/-- C7 (amended): when the OS clock call fails and the heap-space check for
the tuple succeeds, the two-element tuple `{error, errno}` is raised as the
error reason (via `RAISE_ERROR`), not returned as a normal result. -/
theorem c7_tod_error_tuple (ms osErrno : Int) :
    (nif_set_time_of_day (Term.integer ms) true osErrno true).result =
      .raise (Term.tuple2 (Term.atom "error") (Term.integer osErrno)) := by
  rfl

/-! ## Claim C8 -/

/-- C8: for every non-integer argument (`term_is_any_integer` false),
`set_time_of_day` raises `badarg` and `settimeofday` is never invoked. -/
theorem c8_tod_badarg (arg : Term) (osFails : Bool) (osErrno : Int)
    (memOk : Bool) (h : term_is_any_integer arg = false) :
    (nif_set_time_of_day arg osFails osErrno memOk).result =
      .raise (Term.atom "badarg") ∧
    (nif_set_time_of_day arg osFails osErrno memOk).osCall = none := by
  simp [nif_set_time_of_day, h]

/-- C8 witness: the atom `ok` is rejected without an OS call. -/
theorem c8_tod_badarg_witness :
    term_is_any_integer (Term.atom "ok") = false ∧
    ((nif_set_time_of_day (Term.atom "ok") false 0 true).result =
        .raise (Term.atom "badarg") ∧
      (nif_set_time_of_day (Term.atom "ok") false 0 true).osCall = none) :=
  ⟨rfl, c8_tod_badarg (Term.atom "ok") false 0 true rfl⟩

/-! ## Claim C9 -/

/-- C9: with the 6 hardware MAC bytes in range, `get_mac()` returns a binary
of exactly 12 characters, each a lowercase hex digit (`0`-`9` or `a`-`f`),
and two calls in the same boot (same hardware MAC) return identical
results. -/
theorem c9_get_mac_format (mac : List Nat) (hlen : mac.length = 6)
    (hbytes : ∀ b ∈ mac, b < 256) :
    ∃ s : List Nat,
      nif_get_mac mac true = .ok (Term.binary s) ∧
      s.length = 12 ∧
      (∀ c ∈ s, (48 ≤ c ∧ c ≤ 57) ∨ (97 ≤ c ∧ c ≤ 102)) ∧
      nif_get_mac mac true = nif_get_mac mac true := by
  refine ⟨mac.flatMap byteHex, ?_, ?_, ?_, rfl⟩
  · simp [nif_get_mac]
  · rw [length_flatMap_byteHex, hlen]
  · intro c hc
    rw [List.mem_flatMap] at hc
    obtain ⟨b, hb, hcb⟩ := hc
    have hb256 := hbytes b hb
    have : c = hexDigit (b / 16) ∨ c = hexDigit (b % 16) := by
      simpa [byteHex] using hcb
    have hq : b / 16 < 16 := Nat.div_lt_of_lt_mul (by omega)
    have hr : b % 16 < 16 := Nat.mod_lt _ (by omega)
    rcases this with h | h <;> subst h <;> unfold hexDigit <;>
      split <;> omega

/-- C9 witness: the MAC `24:0a:c4:00:ff:01` formats as `240ac400ff01`. -/
theorem c9_get_mac_format_witness :
    ([0x24, 0x0a, 0xc4, 0x00, 0xff, 0x01] : List Nat).length = 6 ∧
    (∀ b ∈ ([0x24, 0x0a, 0xc4, 0x00, 0xff, 0x01] : List Nat), b < 256) ∧
    ∃ s : List Nat,
      nif_get_mac [0x24, 0x0a, 0xc4, 0x00, 0xff, 0x01] true =
        .ok (Term.binary s) ∧
      s.length = 12 ∧
      (∀ c ∈ s, (48 ≤ c ∧ c ≤ 57) ∨ (97 ≤ c ∧ c ≤ 102)) ∧
      nif_get_mac [0x24, 0x0a, 0xc4, 0x00, 0xff, 0x01] true =
        nif_get_mac [0x24, 0x0a, 0xc4, 0x00, 0xff, 0x01] true :=
  ⟨by decide, by decide,
    c9_get_mac_format [0x24, 0x0a, 0xc4, 0x00, 0xff, 0x01] (by decide)
      (by decide)⟩

/-! ## Claim C10 -/

/-- C10: on a binary input with the heap check succeeding and the digest
engine reporting failure, `sha1` raises `badarg`, but only after the 20-byte
output binary was constructed on the managed heap: the heap after the call
is the old heap extended by that binary, hence not unchanged. -/
theorem c10_sha1_error_path_heap (b : List Nat) (heap : List Term) :
    (nif_sha1 (Term.binary b) true true heap).1 =
      .raise (Term.atom "badarg") ∧
    (nif_sha1 (Term.binary b) true true heap).2 =
      heap ++ [Term.binary (mbedtls_sha1_ret b)] ∧
    (mbedtls_sha1_ret b).length = 20 ∧
    (nif_sha1 (Term.binary b) true true heap).2 ≠ heap := by
  refine ⟨?_, ?_, sha1spec_length b, ?_⟩
  · simp [nif_sha1, term_is_binary, term_binary_data]
  · simp [nif_sha1, term_is_binary, term_binary_data]
  · simp only [nif_sha1, term_is_binary, term_binary_data]
    intro hcontra
    have := congrArg List.length hcontra
    simp at this

end AtomvmLib
